import Mathlib

/-!
Shallow embedding of the glyph cache / font fallback engine of the
`font` crate (src/font/src/ft/mod.rs and src/font/src/lib.rs).

Modelling conventions:
* Rust `f32`/`f64` values are modelled as `Rat`; the numeric casts that the
  source performs (`as i16`, `as i32`, `as usize`, `round`) are modelled by
  explicit functions (`f32toI16`, `f32toI32`, `f64toUsize`, `rustRound`)
  mirroring Rust saturating/truncating cast semantics. Where a division can
  produce infinity or NaN (the downsampler's `scaling_factor`), the value
  lives in `F32x` (finite rational, +inf, or NaN) with f32 `max`/`ceil`/cast
  semantics.
* Machine integers (`i16`, `i32`, `i64`, `u16`) are `Int`/`Nat` with the
  wrap/saturate points made explicit where the source hits them
  (`FontKey.next` truncates `as u16`, `advance_step as i32` wraps).
* `&mut self` methods become explicit state passing: each operation takes a
  `FreeTypeRasterizer` and returns `PResult α × FreeTypeRasterizer`, so state
  writes that happen before an error are preserved, as in the source.
* A Rust `panic!` / out-of-bounds slice index / `Option::unwrap` failure is
  the `PResult.panic` outcome, distinct from the `Err` values the functions
  return.
* The fontconfig and FreeType backends are parameters (`FcBackend`): a pure
  match function and a pure face loader, as the spec describes them.
  Bitmap dimensions are assumed nonnegative (FreeType produces `rows`,
  `width` as nonnegative `c_int`).
-/

/-- `Slant` from src/font/src/lib.rs. -/
inductive FontSlant where
  | normal | italic | oblique
deriving DecidableEq

/-- `Weight` from src/font/src/lib.rs. -/
inductive FontWeight where
  | normal | bold
deriving DecidableEq

/-- `Style` from src/font/src/lib.rs. -/
inductive FontStyle where
  | specific : String → FontStyle
  | description : FontSlant → FontWeight → FontStyle
deriving DecidableEq

/-- `FontDesc` from src/font/src/lib.rs. -/
structure FontDescData where
  name : String
  style : FontStyle
deriving DecidableEq

/-- The `Error` enum of src/font/src/ft/mod.rs (the `freetype::Error` payload
of the `FreeType` variant is opaque and elided). Note the enum has exactly
these four variants. -/
inductive FontErrorKind where
  | freeType : FontErrorKind
  | missingFont : FontDescData → FontErrorKind
  | missingSizeMetrics : FontErrorKind
  | fontNotLoaded : FontErrorKind
deriving DecidableEq

/-- Outcome of a Rust computation: `Ok`, `Err`, or a process abort
(`panic!`, failed `unwrap`, out-of-bounds index). -/
inductive PResult (α : Type) where
  | ok : α → PResult α
  | err : FontErrorKind → PResult α
  | panic : PResult α
deriving DecidableEq

def PResult.bindR {α β : Type} : PResult α → (α → PResult β) → PResult β
  | .ok a, f => f a
  | .err e, _ => .err e
  | .panic, _ => .panic

instance : Monad PResult where
  pure := PResult.ok
  bind := PResult.bindR

/-- Truncation toward zero (what Rust float-to-int `as` casts do before
saturating). -/
def ratTrunc (q : Rat) : Int := if q < 0 then Int.ceil q else Int.floor q

/-- Rust `f32 as i16` saturating cast. -/
def f32toI16 (q : Rat) : Int := max (-32768) (min 32767 (ratTrunc q))

/-- Rust `f32 as i32` / `f64 as i32` saturating cast. -/
def f32toI32 (q : Rat) : Int := max (-2147483648) (min 2147483647 (ratTrunc q))

/-- Rust `f64 as usize` saturating cast (negative values clamp to 0). -/
def f64toUsize (q : Rat) : Nat := if q < 0 then 0 else (Int.floor q).toNat

/-- Rust `f32::ceil` followed by `as usize`. -/
def f32ceilToUsize (q : Rat) : Nat := if q < 0 then 0 else (Int.ceil q).toNat

/-- Rust `usize as i32` wrapping cast. -/
def usizeToI32 (n : Nat) : Int :=
  let m := n % 4294967296
  if m < 2147483648 then (m : Int) else (m : Int) - 4294967296

/-- Rust `f32::round`: round half away from zero. -/
def rustRound (q : Rat) : Int :=
  if q < 0 then -(Int.floor (-q + 1/2)) else Int.floor (q + 1/2)

/-- `FontKey` from src/font/src/lib.rs: `struct FontKey { token: u16 }`. -/
structure FontKey where
  token : Nat
deriving DecidableEq

/-- `FontKey::next` from src/font/src/lib.rs. The process-wide
`static TOKEN: AtomicUsize` is the explicit `tokenCounter` argument;
`TOKEN.fetch_add(1, Ordering::SeqCst) as _` truncates the `usize` counter to
the `u16` field, modelled by `% 65536`. Returns the new key and the advanced
counter. -/
def FontKey.next (tokenCounter : Nat) : FontKey × Nat :=
  ({ token := tokenCounter % 65536 }, tokenCounter + 1)

/-- `Size` from src/font/src/lib.rs: a half-point fixed-point value stored in
an `i16`. -/
structure FontSize where
  halfPoints : Int
deriving DecidableEq

/-- `Size::new(size: f32)`: `Size((size * Size::factor()) as i16)` with
`factor() = 2.0`. -/
def FontSize.new (size : Rat) : FontSize := ⟨f32toI16 (size * 2)⟩

/-- `Size::as_f32_pts`: `f32::from(self.0) / Size::factor()`. -/
def FontSize.as_f32_pts (s : FontSize) : Rat := (s.halfPoints : Rat) / 2

/-- `GlyphKey` as used by src/font/src/ft/mod.rs (`c` is a `char`). -/
structure GlyphKeyData where
  c : Char
  font_key : FontKey
  size : FontSize
deriving DecidableEq

/-- fontconfig `Slant` (src/font/src/ft/fc). -/
inductive FcSlant where
  | roman | italic | oblique
deriving DecidableEq

/-- fontconfig `Weight` (src/font/src/ft/fc). -/
inductive FcWeight where
  | regular | bold
deriving DecidableEq

/-- fontconfig `HintStyle`. -/
inductive FcHintStyle where
  | hintNone | hintSlight | hintMedium | hintFull
deriving DecidableEq

/-- fontconfig `Rgba` (subpixel geometry). -/
inductive FcRgba where
  | unknown | rgb | bgr | vrgb | vbgr | rgbaNone
deriving DecidableEq

/-- fontconfig `LcdFilter`. -/
inductive FcLcdFilter where
  | lcdNone | lcdDefault | lcdLight | lcdLegacy
deriving DecidableEq

/-- `IntoFontconfigType for Slant` (src/font/src/ft/mod.rs). -/
def FontSlant.intoFontconfigType : FontSlant → FcSlant
  | .normal => .roman
  | .italic => .italic
  | .oblique => .oblique

/-- `IntoFontconfigType for Weight` (src/font/src/ft/mod.rs). -/
def FontWeight.intoFontconfigType : FontWeight → FcWeight
  | .normal => .regular
  | .bold => .bold

/-- The fontconfig query pattern built by the rasterizer before calling
`fc::font_match`: the attributes the source ever sets on a fresh
`fc::Pattern`. -/
structure FcQuery where
  family : Option String
  styleName : Option String
  slant : Option FcSlant
  weight : Option FcWeight
  pixelsize : Option Rat
  charset : Option (List Char)
deriving DecidableEq

/-- A matched fontconfig pattern, as read back by the rasterizer. Fields are
the results of the single-element accessor iterators the source consumes
(`pattern.file(0)`, `pattern.index().nth(0)`, `.scalable().next()`, ...). -/
structure FcMatched where
  file : Option String
  index : Option Int
  scalable : Option Bool
  pixelsize : List Rat
  pixelsizefixupfactor : Option Rat
  antialias : Option Bool
  hintstyle : Option FcHintStyle
  rgba : Option FcRgba
  embeddedbitmap : Option Bool
  color : Option Bool
  lcdfilter : Option FcLcdFilter

/-- FreeType `FT_Size_Metrics` (the fields the source reads). -/
structure FtSizeMetrics where
  height : Int
  descender : Int
  x_scale : Int
  y_ppem : Int
  max_advance : Int
deriving DecidableEq

/-- FreeType pixel modes (`freetype::bitmap::PixelMode`). -/
inductive FtPixelMode where
  | pmNone | mono | gray | gray2 | gray4 | lcd | lcdV | bgra
deriving DecidableEq

/-- A FreeType bitmap as consumed by `normalize_buffer`. -/
structure FtBitmap where
  rows : Int
  width : Int
  pitch : Int
  pixel_mode : FtPixelMode
  buffer : List Nat
deriving DecidableEq

/-- FreeType render modes. -/
inductive FtRenderMode where
  | normal | light | mono | lcd | lcdV | maxMode
deriving DecidableEq

/-- The glyph slot data read after `load_glyph` + `render_glyph`:
`glyph.bitmap()`, `glyph.bitmap_top()`, `glyph.bitmap_left()`. -/
structure FtGlyphSlot where
  bitmap : FtBitmap
  bitmap_top : Int
  bitmap_left : Int
deriving DecidableEq

/-- A loaded FreeType face handle: the pure observations the rasterizer makes
of a `freetype::Face`. `charIndex` models `get_char_index`, `loadChar0` the
result of `load_char('0' as usize, flags)` (`some horiAdvance` on success),
`setCharSize` the success of `set_char_size`, and `loadRenderGlyph` the
combined `load_glyph`/`render_glyph`/slot read (`none` = backend error). -/
structure FtFaceHandle where
  charIndex : Char → Nat
  underline_position : Int
  underline_thickness : Int
  size_metrics : Option FtSizeMetrics
  has_color : Bool
  os2_strikeout : Option (Int × Int)
  loadChar0 : Option Int
  setCharSize : Int → Bool
  loadRenderGlyph : Nat → Nat → FtRenderMode → Option FtGlyphSlot

/-- `Face` from src/font/src/ft/mod.rs (`non_scalable` holds the
`FixedSize.pixelsize`). -/
structure FaceRec where
  ft_face : FtFaceHandle
  key : FontKey
  load_flags : Nat
  render_mode : FtRenderMode
  lcd_filter : Nat
  non_scalable : Option Rat
  has_color : Bool
  pixelsize_fixup_factor : Rat

/-- `FreeTypeRasterizer` from src/font/src/ft/mod.rs. `faces` and `keys` are
the two `HashMap`s as association maps; `dpr` is the `device_pixel_ratio`
field; `tokenCounter` makes the process-wide `FontKey` counter explicit. -/
structure FreeTypeRasterizer where
  faces : List (FontKey × FaceRec)
  keys : List (String × FontKey)
  dpr : Rat
  pixel_size : Rat
  tokenCounter : Nat

/-- `FreeTypeRasterizer::new` (the `Library::init` handle is implicit in the
backend parameter). -/
def FreeTypeRasterizer.new (dpr : Rat) : FreeTypeRasterizer :=
  { faces := [], keys := [], dpr := dpr, pixel_size := 0, tokenCounter := 0 }

/-- `update_dpr`: sets only the device pixel ratio. -/
def update_dpr (s : FreeTypeRasterizer) (dpr : Rat) : FreeTypeRasterizer :=
  { s with dpr := dpr }

/-- HashMap `get` on an association map. -/
def alLookup {κ ν : Type} [DecidableEq κ] : List (κ × ν) → κ → Option ν
  | [], _ => none
  | e :: rest, k => if e.1 = k then some e.2 else alLookup rest k

/-- HashMap `insert` on an association map (replaces any previous binding). -/
def alInsert {κ ν : Type} [DecidableEq κ] (l : List (κ × ν)) (k : κ) (v : ν) :
    List (κ × ν) :=
  (k, v) :: l.filter (fun e => ! decide (e.1 = k))

/-- In-place update through HashMap `get_mut` on an association map. -/
def alUpdate {κ ν : Type} [DecidableEq κ] (l : List (κ × ν)) (k : κ) (f : ν → ν) :
    List (κ × ν) :=
  l.map (fun e => if e.1 = k then (e.1, f e.2) else e)

/-- The external backends: fontconfig's `font_match` (deterministic, as the
spec assumes) and FreeType's `Library::new_face` (`none` = load error). -/
structure FcBackend where
  fontMatch : FcQuery → Option FcMatched
  newFace : String → Int → Option FtFaceHandle

/-- FreeType load flag constants (`freetype::face::LoadFlag`). -/
def NO_HINTING : Nat := 2

def NO_BITMAP : Nat := 8

def MONOCHROME : Nat := 4096

def COLOR_FLAG : Nat := 1048576

def TARGET_NORMAL : Nat := 0

def TARGET_LIGHT : Nat := 65536

def TARGET_MONO : Nat := 131072

def TARGET_LCD : Nat := 196608

def TARGET_LCD_V : Nat := 262144

/-- FreeType LCD filter constants (`FT_LCD_FILTER_*`). -/
def FT_LCD_FILTER_NONE : Nat := 0

def FT_LCD_FILTER_DEFAULT : Nat := 1

def FT_LCD_FILTER_LIGHT : Nat := 2

def FT_LCD_FILTER_LEGACY : Nat := 16

/-- `FreeTypeRasterizer::ft_load_flags` (src/font/src/ft/mod.rs). The match
arms are in source order; defaults mirror the `unwrap_or` defaults. -/
def ft_load_flags (pat : FcMatched) : Nat :=
  let antialias := pat.antialias.getD true
  let hinting := pat.hintstyle.getD FcHintStyle.hintSlight
  let rgba := pat.rgba.getD FcRgba.unknown
  let embedded_bitmaps := pat.embeddedbitmap.getD true
  let color := pat.color.getD false
  let flags :=
    match antialias, hinting, rgba with
    | false, FcHintStyle.hintNone, _ => NO_HINTING ||| MONOCHROME
    | false, _, _ => TARGET_MONO ||| MONOCHROME
    | true, FcHintStyle.hintNone, _ => NO_HINTING ||| TARGET_NORMAL
    | true, FcHintStyle.hintSlight, _ => TARGET_LIGHT
    | true, _, FcRgba.rgb => TARGET_LCD
    | true, _, FcRgba.bgr => TARGET_LCD
    | true, _, FcRgba.vrgb => TARGET_LCD_V
    | true, _, FcRgba.vbgr => TARGET_LCD_V
    | true, _, FcRgba.unknown => TARGET_NORMAL
    | true, _, FcRgba.rgbaNone => TARGET_NORMAL
  let flags := if embedded_bitmaps then flags else flags ||| NO_BITMAP
  if color then flags ||| COLOR_FLAG else flags

/-- `FreeTypeRasterizer::ft_render_mode`. -/
def ft_render_mode (pat : FcMatched) : FtRenderMode :=
  let antialias := pat.antialias.getD true
  let rgba := pat.rgba.getD FcRgba.unknown
  match antialias, rgba with
  | false, _ => FtRenderMode.mono
  | _, FcRgba.rgb => FtRenderMode.lcd
  | _, FcRgba.bgr => FtRenderMode.lcd
  | _, FcRgba.vrgb => FtRenderMode.lcdV
  | _, FcRgba.vbgr => FtRenderMode.lcdV
  | true, _ => FtRenderMode.normal

/-- `FreeTypeRasterizer::ft_lcd_filter`. -/
def ft_lcd_filter (pat : FcMatched) : Nat :=
  match pat.lcdfilter.getD FcLcdFilter.lcdDefault with
  | FcLcdFilter.lcdNone => FT_LCD_FILTER_NONE
  | FcLcdFilter.lcdDefault => FT_LCD_FILTER_DEFAULT
  | FcLcdFilter.lcdLight => FT_LCD_FILTER_LIGHT
  | FcLcdFilter.lcdLegacy => FT_LCD_FILTER_LEGACY

/-- `FreeTypeRasterizer::face_from_pattern`. Checks the path cache first; on
a miss loads the face, reads scalability (panicking `expect` if a
non-scalable match lists no pixel size), allocates the next `FontKey` and
inserts into both maps. Returns `ok none` when the match lacks a file path
or index. -/
def face_from_pattern (bk : FcBackend) (pattern : FcMatched)
    (s : FreeTypeRasterizer) : PResult (Option FontKey) × FreeTypeRasterizer :=
  match pattern.file, pattern.index with
  | some path, some index =>
    match alLookup s.keys path with
    | some key => (.ok (some key), s)
    | none =>
      match bk.newFace path index with
      | none => (.err .freeType, s)
      | some ft_face =>
        let scalableAttr := pattern.scalable.getD true
        match (if scalableAttr then .ok none else
                match pattern.pixelsize with
                | p :: _ => .ok (some p)
                | [] => .panic : PResult (Option Rat)) with
        | .panic => (.panic, s)
        | .err e => (.err e, s)
        | .ok non_scalable =>
          let pixelsize_fixup_factor := pattern.pixelsizefixupfactor.getD 0
          let has_color := ft_face.has_color
          let allocated := FontKey.next s.tokenCounter
          let face : FaceRec :=
            { ft_face := ft_face
              key := allocated.1
              load_flags := ft_load_flags pattern
              render_mode := ft_render_mode pattern
              lcd_filter := ft_lcd_filter pattern
              non_scalable := non_scalable
              has_color := has_color
              pixelsize_fixup_factor := pixelsize_fixup_factor }
          (.ok (some allocated.1),
           { s with faces := alInsert s.faces allocated.1 face
                    keys := alInsert s.keys path allocated.1
                    tokenCounter := allocated.2 })
  | _, _ => (.ok none, s)

/-- Shared body of `get_matching_face` and `get_specific_face` (the two
source functions are textually identical after pattern construction): store
the pixel size, run `fc::font_match`, then `face_from_pattern`, mapping a
missing path/index to `MissingFont(desc)`. -/
def match_and_load (bk : FcBackend) (desc : FontDescData) (pattern : FcQuery)
    (ps : Rat) (s : FreeTypeRasterizer) : PResult FontKey × FreeTypeRasterizer :=
  match bk.fontMatch pattern with
  | none => (.err (.missingFont desc), { s with pixel_size := ps })
  | some font =>
    match face_from_pattern bk font { s with pixel_size := ps } with
    | (.ok (some key), s2) => (.ok key, s2)
    | (.ok none, s2) => (.err (.missingFont desc), s2)
    | (.err e, s2) => (.err e, s2)
    | (.panic, s2) => (.panic, s2)

/-- `FreeTypeRasterizer::get_matching_face`: family + weight + slant +
pixelsize query. -/
def get_matching_face (bk : FcBackend) (desc : FontDescData) (slant : FontSlant)
    (weight : FontWeight) (size : FontSize) (s : FreeTypeRasterizer) :
    PResult FontKey × FreeTypeRasterizer :=
  match_and_load bk desc
    { family := some desc.name
      styleName := none
      slant := some slant.intoFontconfigType
      weight := some weight.intoFontconfigType
      pixelsize := some size.as_f32_pts
      charset := none }
    size.as_f32_pts s

/-- `FreeTypeRasterizer::get_specific_face`: family + style-name +
pixelsize query. -/
def get_specific_face (bk : FcBackend) (desc : FontDescData) (style : String)
    (size : FontSize) (s : FreeTypeRasterizer) :
    PResult FontKey × FreeTypeRasterizer :=
  match_and_load bk desc
    { family := some desc.name
      styleName := some style
      slant := none
      weight := none
      pixelsize := some size.as_f32_pts
      charset := none }
    size.as_f32_pts s

/-- `FreeTypeRasterizer::get_face`: DPI-adjust the size
(`size.as_f32_pts() * device_pixel_ratio * 96. / 72.`) then dispatch on the
style kind. -/
def get_face (bk : FcBackend) (desc : FontDescData) (size : FontSize)
    (s : FreeTypeRasterizer) : PResult FontKey × FreeTypeRasterizer :=
  match desc.style with
  | FontStyle.description slant weight =>
    get_matching_face bk desc slant weight
      (FontSize.new (size.as_f32_pts * s.dpr * 96 / 72)) s
  | FontStyle.specific style =>
    get_specific_face bk desc style
      (FontSize.new (size.as_f32_pts * s.dpr * 96 / 72)) s

/-- `Rasterize::load_font` = `get_face`. -/
def load_font (bk : FcBackend) (desc : FontDescData) (size : FontSize)
    (s : FreeTypeRasterizer) : PResult FontKey × FreeTypeRasterizer :=
  get_face bk desc size s

/-- `FullMetrics` (src/font/src/ft/mod.rs). -/
structure FullMetricsRec where
  size_metrics : FtSizeMetrics
  cell_width : Rat
deriving DecidableEq

/-- `FreeTypeRasterizer::full_metrics` (read-only): size metrics plus the
advance of glyph '0', falling back to `max_advance`. Integer division is the
Rust truncating `/ 64` on the raw values; the result is then an `f64`. -/
def full_metrics (s : FreeTypeRasterizer) (key : FontKey) : PResult FullMetricsRec :=
  match alLookup s.faces key with
  | none => .err .fontNotLoaded
  | some face =>
    match face.ft_face.size_metrics with
    | none => .err .missingSizeMetrics
    | some sm =>
      let width : Int :=
        match face.ft_face.loadChar0 with
        | some adv => Int.div adv 64
        | none => Int.div sm.max_advance 64
      .ok { size_metrics := sm, cell_width := (width : Rat) }

/-- `Metrics` from src/font/src/lib.rs. -/
structure MetricsRec where
  average_advance : Rat
  line_height : Rat
  descent : Rat
  underline_position : Rat
  underline_thickness : Rat
  strikeout_position : Rat
  strikeout_thickness : Rat
deriving DecidableEq

/-- `Rasterize::metrics for FreeTypeRasterizer` (src/font/src/ft/mod.rs).
The underline fallback replaces position and thickness exactly when the
scaled `underline_position` compares equal to `0.`; the OS/2 strikeout table
is used when present, else the fallback strikeout. -/
def metricsOp (s : FreeTypeRasterizer) (key : FontKey) (_size : FontSize) :
    PResult MetricsRec :=
  match alLookup s.faces key with
  | none => .err .fontNotLoaded
  | some face =>
    match full_metrics s key with
    | .err e => .err e
    | .panic => .panic
    | .ok full =>
      let height : Rat := ((Int.div full.size_metrics.height 64 : Int) : Rat)
      let descent : Rat := ((Int.div full.size_metrics.descender 64 : Int) : Rat)
      let x_scale : Rat := (full.size_metrics.x_scale : Rat) / 65536
      let upos : Rat := (face.ft_face.underline_position : Rat) * x_scale / 64
      let uthick : Rat := (face.ft_face.underline_thickness : Rat) * x_scale / 64
      let underline_position := if upos = 0 then descent / 2 else upos
      let underline_thickness :=
        if upos = 0 then ((rustRound (descent / 5) : Int) : Rat) else uthick
      let strikeout_position :=
        match face.ft_face.os2_strikeout with
        | some st => (st.1 : Rat) * x_scale / 64
        | none => height / 2 + descent
      let strikeout_thickness :=
        match face.ft_face.os2_strikeout with
        | some st => (st.2 : Rat) * x_scale / 64
        | none => underline_thickness
      .ok { average_advance := full.cell_width
            line_height := height
            descent := descent
            underline_position := underline_position
            underline_thickness := underline_thickness
            strikeout_position := strikeout_position
            strikeout_thickness := strikeout_thickness }

/-- The single-codepoint charset query built by `load_face_with_glyph`:
`CharSet::new()` + `add(glyph)`, plus `add_pixelsize(self.pixel_size as f64)`.
No other attribute is set. -/
def fallbackQuery (glyph : Char) (pixelSize : Rat) : FcQuery :=
  { family := none
    styleName := none
    slant := none
    weight := none
    pixelsize := some pixelSize
    charset := some [glyph] }

/-- `FreeTypeRasterizer::load_face_with_glyph`: charset query at the stored
`pixel_size`; on a path-cache hit, refresh only the cached face's
`pixelsize_fixup_factor` (`get_mut(..).unwrap()` panics if the maps are
inconsistent); on a miss, `face_from_pattern` (whose `None` is `unwrap`ed);
when the match lacks path/index or there is no match, `MissingFont` with a
synthesized description. -/
def load_face_with_glyph (bk : FcBackend) (glyph : Char)
    (s : FreeTypeRasterizer) : PResult FontKey × FreeTypeRasterizer :=
  match bk.fontMatch (fallbackQuery glyph s.pixel_size) with
  | some pattern =>
    match pattern.file, pattern.index with
    | some path, some _ =>
      match alLookup s.keys path with
      | some key =>
        match alLookup s.faces key with
        | none => (.panic, s)
        | some _ =>
          (.ok key,
           { s with faces := alUpdate s.faces key (fun f =>
               { f with pixelsize_fixup_factor :=
                   pattern.pixelsizefixupfactor.getD 0 }) })
      | none =>
        match face_from_pattern bk pattern s with
        | (.ok (some key), s2) => (.ok key, s2)
        | (.ok none, s2) => (.panic, s2)
        | (.err e, s2) => (.err e, s2)
        | (.panic, s2) => (.panic, s2)
    | _, _ =>
      (.err (.missingFont
        { name := "fallback-without-path", style := FontStyle.specific glyph.toString }), s)
  | none =>
    (.err (.missingFont
      { name := "no-fallback-for", style := FontStyle.specific glyph.toString }), s)

/-- `FreeTypeRasterizer::face_for_glyph`: use the primary face when it maps
the character to a nonzero glyph index or when this is already the recursive
attempt; otherwise try `load_face_with_glyph`, falling back to the primary
key on `Err` (`unwrap_or(glyph_key.font_key)`; the `Err` paths of
`load_face_with_glyph` leave the state unchanged, so the source's discarded
`&mut self` mutations are preserved faithfully). -/
def face_for_glyph (bk : FcBackend) (glyph_key : GlyphKeyData)
    (have_recursed : Bool) (s : FreeTypeRasterizer) :
    PResult FontKey × FreeTypeRasterizer :=
  let c := glyph_key.c
  let use_initial_face :=
    match alLookup s.faces glyph_key.font_key with
    | some face => (face.ft_face.charIndex c != 0) || have_recursed
    | none => false
  if use_initial_face then
    (.ok glyph_key.font_key, s)
  else
    match load_face_with_glyph bk c s with
    | (.ok key, s2) => (.ok key, s2)
    | (.err _, s2) => (.ok glyph_key.font_key, s2)
    | (.panic, s2) => (.panic, s2)

/-- Indexing `buf[i]`: panics when out of bounds, as a Rust slice index. -/
def idxP (l : List Nat) (i : Nat) : PResult Nat :=
  match l.get? i with
  | some v => .ok v
  | none => .panic

/-- Slicing `&buf[start..stop]`: panics when the range is invalid. -/
def sliceP (l : List Nat) (start stop : Nat) : PResult (List Nat) :=
  if start ≤ stop ∧ stop ≤ l.length then .ok ((l.drop start).take (stop - start))
  else .panic

/-- A counted `for` loop that concatenates the chunks produced per index, in
increasing index order. -/
def catRange (f : Nat → PResult (List Nat)) : Nat → PResult (List Nat)
  | 0 => .ok []
  | n + 1 => do
      let xs ← catRange f n
      let x ← f n
      pure (xs ++ x)

/-- `unpack_byte` from `normalize_buffer`'s Mono arm: emit `count` bits of
`byte` starting at bit position `bit` (the source starts at 7), MSB first,
each bit mapped to 0 or 255 and pushed three times. -/
def unpack_byte (byte : Nat) : Nat → Nat → List Nat
  | 0, _ => []
  | count + 1, bit =>
    let value := ((byte >>> bit) &&& 1) * 255
    value :: value :: value :: unpack_byte byte count (bit - 1)

/-- The Mono arm's inner `while columns != 0` loop: consume `min 8 columns`
bits from the byte at `offset + byteIdx`, then advance. `fuel` is initialized
to `columns`; since at least one column is consumed per step it never runs
out before the loop's own exit condition. -/
def monoRowGo (buf : List Nat) (offset : Nat) :
    Nat → Nat → Nat → PResult (List Nat)
  | _, 0, _ => .ok []
  | 0, _ + 1, _ => .ok []
  | fuel + 1, columns + 1, byteIdx => do
      let bits := min 8 (columns + 1)
      let bytev ← idxP buf (offset + byteIdx)
      let rest ← monoRowGo buf offset fuel (columns + 1 - bits) (byteIdx + 1)
      pure (unpack_byte bytev bits 7 ++ rest)

/-- `FreeTypeRasterizer::normalize_buffer`: convert a backend bitmap to the
canonical packed RGB buffer, per pixel-format tag. Returns
`(pixel_height, pixel_width, buf)` as the source does; the final catch-all
arm is `panic!("unhandled pixel mode: ...")`. -/
def normalize_buffer (bitmap : FtBitmap) : PResult (Int × Int × List Nat) :=
  let buf := bitmap.buffer
  let pitch := bitmap.pitch.natAbs
  match bitmap.pixel_mode with
  | FtPixelMode.lcd => do
      let packed ← catRange
        (fun i => sliceP buf (i * pitch) (i * pitch + bitmap.width.toNat))
        bitmap.rows.toNat
      pure (bitmap.rows, Int.div bitmap.width 3, packed)
  | FtPixelMode.lcdV => do
      let packed ← catRange
        (fun i => catRange
          (fun j => catRange
            (fun k => do
              let v ← idxP buf ((i * 3 + k) * pitch + j)
              pure [v]) 3)
          bitmap.width.toNat)
        (Int.div bitmap.rows 3).toNat
      pure (Int.div bitmap.rows 3, bitmap.width, packed)
  | FtPixelMode.mono => do
      let packed ← catRange
        (fun i => monoRowGo buf (i * pitch) bitmap.width.toNat bitmap.width.toNat 0)
        bitmap.rows.toNat
      pure (bitmap.rows, bitmap.width, packed)
  | FtPixelMode.gray => do
      let packed ← catRange
        (fun i => do
          let row ← sliceP buf (i * pitch) (i * pitch + bitmap.width.toNat)
          pure (row.flatMap (fun b => [b, b, b])))
        bitmap.rows.toNat
      pure (bitmap.rows, bitmap.width, packed)
  | FtPixelMode.bgra => do
      let packed ← catRange
        (fun p => do
          let r ← idxP buf (p * 4 + 2)
          let g ← idxP buf (p * 4 + 1)
          let b ← idxP buf (p * 4)
          pure [r, g, b])
        (bitmap.rows * bitmap.width).toNat
      pure (bitmap.rows, bitmap.width, packed)
  | _ => .panic

/-- `RasterizedGlyph` as constructed by src/font/src/ft/mod.rs. -/
structure RasterizedGlyphRec where
  c : Char
  width : Int
  height : Int
  top : Int
  left : Int
  colored : Bool
  buf : List Nat
deriving DecidableEq

/-- `to_freetype_26_6`: `((1i32 << 6) as f32 * f) as isize`. -/
def to_freetype_26_6 (f : Rat) : Int := ratTrunc (64 * f)

/-- The innermost column loop of one box in `downsample_bitmap`: sum the
R, G, B bytes of `count` source pixels of the row with byte base `base`,
starting at source column `sc`, also counting `pixels_picked`. -/
def boxCols (buf : List Nat) (base : Nat) :
    Nat → Nat → PResult (Nat × Nat × Nat × Nat)
  | _, 0 => pure (0, 0, 0, 0)
  | sc, n + 1 => do
      let r ← idxP buf (base + sc * 3)
      let g ← idxP buf (base + sc * 3 + 1)
      let b ← idxP buf (base + sc * 3 + 2)
      let rest ← boxCols buf base (sc + 1) n
      pure (r + rest.1, g + rest.2.1, b + rest.2.2.1, rest.2.2.2 + 1)

/-- The line loop of one box in `downsample_bitmap`: `count` source lines
starting at `sl`, each contributing `ccount` columns starting at `sc`
(`cur_pixel_index = source_line_index * bitmap_width * 3`). -/
def boxLines (buf : List Nat) (bw : Nat) (sc ccount : Nat) :
    Nat → Nat → PResult (Nat × Nat × Nat × Nat)
  | _, 0 => pure (0, 0, 0, 0)
  | sl, n + 1 => do
      let one ← boxCols buf (sl * bw * 3) sc ccount
      let rest ← boxLines buf bw sc ccount (sl + 1) n
      pure (one.1 + rest.1, one.2.1 + rest.2.1, one.2.2.1 + rest.2.2.1,
            one.2.2.2 + rest.2.2.2)

/-- One target pixel of `downsample_bitmap`: average the source box clipped
to the source bounds; a box that picked zero pixels outputs black. The
`(component / pixels_picked) as u8` cast is `% 256` (always the identity
here since the average is ≤ 255). -/
def boxPixel (buf : List Nat) (bw bh step : Nat) (sl sc : Nat) :
    PResult (List Nat) := do
  let source_end_line := min (sl + step) bh
  let source_end_column := min (sc + step) bw
  let sums ← boxLines buf bw sc (source_end_column - sc) sl (source_end_line - sl)
  let picked := sums.2.2.2
  if picked = 0 then pure [0, 0, 0]
  else pure [sums.1 / picked % 256, sums.2.1 / picked % 256, sums.2.2.1 / picked % 256]

/-- The `while new_column_index < width` loop: `n` remaining target columns;
`source_column_index` advances by `step` per target column. -/
def gridCols (buf : List Nat) (bw bh step : Nat) (sl : Nat) :
    Nat → Nat → PResult (List Nat)
  | _, 0 => pure []
  | sc, n + 1 => do
      let px ← boxPixel buf bw bh step sl sc
      let rest ← gridCols buf bw bh step sl (sc + step) n
      pure (px ++ rest)

/-- The `while new_line_index < height` loop: `n` remaining target lines;
`source_line_index` advances by `step` per target line. -/
def gridLines (buf : List Nat) (bw bh step width : Nat) :
    Nat → Nat → PResult (List Nat)
  | _, 0 => pure []
  | sl, n + 1 => do
      let row ← gridCols buf bw bh step sl 0 width
      let rest ← gridLines buf bw bh step width (sl + step) n
      pure (row ++ rest)

/-- An `f32` value as produced by dividing two nonnegative-integer casts:
finite (modelled exactly as a rational), +infinity (a positive numerator
over zero), or NaN (zero over zero). -/
inductive F32x where
  | finite : Rat → F32x
  | posInf : F32x
  | nan : F32x
deriving DecidableEq

/-- Rust `a as f32 / b as f32` on usize operands: `x/0.0` is `+inf` for
`x > 0` and NaN for `0.0/0.0`; otherwise the exact quotient. -/
def f32divCast (a b : Nat) : F32x :=
  if b = 0 then (if a = 0 then F32x.nan else F32x.posInf)
  else F32x.finite ((a : Rat) / (b : Rat))

/-- Rust `f32::max`: ignores a NaN operand (returns the other); the
quiet-NaN result only when both are NaN. -/
def F32x.fmax : F32x → F32x → F32x
  | F32x.nan, y => y
  | x, F32x.nan => x
  | F32x.posInf, _ => F32x.posInf
  | _, F32x.posInf => F32x.posInf
  | F32x.finite a, F32x.finite b => F32x.finite (max a b)

/-- Rust `f32::ceil` followed by the saturating `as usize` cast:
NaN goes to 0, `+inf` saturates to `usize::MAX`. -/
def F32x.ceilToUsize : F32x → Nat
  | F32x.finite q => f32ceilToUsize q
  | F32x.posInf => 18446744073709551615
  | F32x.nan => 0

/-- `downsample_bitmap` (src/font/src/ft/mod.rs): never upscale; box-filter
the color bitmap down to `floor(dimension * fixup_factor)`; blend the new
`top` from the scaled top and `top / advance_step`; scale `left`. The float
casts are the explicit cast functions; the `scaling_factor` division keeps
f32 infinity/NaN semantics (`f32divCast`, `F32x.fmax`, `F32x.ceilToUsize`),
so a 0x0 glyph gives `advance_step = NaN as usize = 0` and a zero target
dimension gives `advance_step = usize::MAX` (`as i32` = -1). The i32
division `top / advance_step as i32` panics on a zero divisor (and on the
`i32::MIN / -1` overflow), as Rust division does; i32 addition overflow, a
build-profile-dependent program error, is not modelled. -/
def downsample_bitmap (bitmap_glyph : RasterizedGlyphRec) (fixup_factor : Rat) :
    PResult RasterizedGlyphRec :=
  if fixup_factor > 1 then .ok bitmap_glyph
  else
    let bitmap_width : Rat := (bitmap_glyph.width : Rat)
    let bitmap_height : Rat := (bitmap_glyph.height : Rat)
    let width := f64toUsize (bitmap_width * fixup_factor)
    let height := f64toUsize (bitmap_height * fixup_factor)
    let bw := f64toUsize bitmap_width
    let bh := f64toUsize bitmap_height
    let scaling_factor := F32x.fmax (f32divCast bw width) (f32divCast bh height)
    let advance_step := scaling_factor.ceilToUsize
    match gridLines bitmap_glyph.buf bw bh advance_step width 0 height with
    | .panic => .panic
    | .err e => .err e
    | .ok scaled_buffer =>
      if usizeToI32 advance_step = 0 ∨
         (bitmap_glyph.top = -2147483648 ∧ usizeToI32 advance_step = -1) then .panic
      else
        .ok { bitmap_glyph with
          top := Int.div (f32toI32 ((bitmap_glyph.top : Rat) * fixup_factor)
                   + Int.div bitmap_glyph.top (usizeToI32 advance_step)) 2
          left := f32toI32 ((bitmap_glyph.left : Rat) * fixup_factor)
          width := usizeToI32 width
          height := usizeToI32 height
          buf := scaled_buffer }

/-- `FreeTypeRasterizer::get_rendered_glyph` (= `Rasterize::get_glyph`):
resolve the face via `face_for_glyph(glyph_key, false)`, index the face map
(a Rust `HashMap` index that panics when the key is absent), compute the
target size, set the char size for non-color faces, apply the LCD filter
(process-global backend state with no observable effect in this model),
load + render, normalize, and for color faces downsample with the stored or
recomputed fixup factor. -/
def get_rendered_glyph (bk : FcBackend) (glyph_key : GlyphKeyData)
    (s : FreeTypeRasterizer) : PResult RasterizedGlyphRec × FreeTypeRasterizer :=
  match face_for_glyph bk glyph_key false s with
  | (.err e, s1) => (.err e, s1)
  | (.panic, s1) => (.panic, s1)
  | (.ok font_key, s1) =>
    match alLookup s1.faces font_key with
    | none => (.panic, s1)
    | some face =>
      let index := face.ft_face.charIndex glyph_key.c
      let size : Rat :=
        match face.non_scalable with
        | some pixelsize => pixelsize
        | none => glyph_key.size.as_f32_pts * s1.dpr * 96 / 72
      let charSizeOk :=
        if face.has_color then true
        else face.ft_face.setCharSize (to_freetype_26_6 size)
      if !charSizeOk then (.err .freeType, s1)
      else
        match face.ft_face.loadRenderGlyph index face.load_flags face.render_mode with
        | none => (.err .freeType, s1)
        | some glyph =>
          match normalize_buffer glyph.bitmap with
          | .err e => (.err e, s1)
          | .panic => (.panic, s1)
          | .ok res =>
            let bitmap : RasterizedGlyphRec :=
              { c := glyph_key.c
                top := glyph.bitmap_top
                left := glyph.bitmap_left
                width := res.2.1
                height := res.1
                colored := face.has_color
                buf := res.2.2 }
            if face.has_color then
              let fixup_factor : Rat :=
                if face.pixelsize_fixup_factor = 0 then
                  s1.pixel_size /
                    (match face.ft_face.size_metrics with
                     | some sm => (sm.y_ppem : Rat)
                     | none => (bitmap.height : Rat))
                else face.pixelsize_fixup_factor
              match downsample_bitmap bitmap fixup_factor with
              | .ok g => (.ok g, s1)
              | .err e => (.err e, s1)
              | .panic => (.panic, s1)
            else (.ok bitmap, s1)

/-- Concrete face handle whose charmap maps every character to glyph index 0
(character absent). -/
def testFaceNoGlyph : FtFaceHandle :=
  { charIndex := fun _ => 0
    underline_position := 0
    underline_thickness := 0
    size_metrics := none
    has_color := false
    os2_strikeout := none
    loadChar0 := none
    setCharSize := fun _ => true
    loadRenderGlyph := fun _ _ _ => none }

def keyZero : FontKey := ⟨0⟩

/-- Concrete cached face record built on `testFaceNoGlyph`. -/
def faceNoGlyph : FaceRec :=
  { ft_face := testFaceNoGlyph
    key := keyZero
    load_flags := 0
    render_mode := FtRenderMode.normal
    lcd_filter := 1
    non_scalable := none
    has_color := false
    pixelsize_fixup_factor := 0 }

/-- Concrete state with one loaded face under `keyZero`. -/
def stateOne : FreeTypeRasterizer :=
  { faces := [(keyZero, faceNoGlyph)]
    keys := [("/primary.ttf", keyZero)]
    dpr := 1
    pixel_size := 24
    tokenCounter := 1 }

/-- Backend that never matches and never loads. -/
def bkNoMatch : FcBackend :=
  { fontMatch := fun _ => none, newFace := fun _ _ => none }

def gkZ : GlyphKeyData := { c := 'z', font_key := keyZero, size := ⟨24⟩ }

def gkUnknown : GlyphKeyData := { c := 'a', font_key := ⟨7⟩, size := ⟨24⟩ }

/-- C1 counterexample: with the character absent from the primary face and no
fontconfig match, `face_for_glyph(gk, false)` does not fail with
`MissingFont` — it returns `Ok` with the primary `FontKey` (the `Err` of
`load_face_with_glyph` is swallowed by `unwrap_or(glyph_key.font_key)`). -/
theorem c1_counterexample :
    (face_for_glyph bkNoMatch gkZ false stateOne).1 = PResult.ok keyZero := rfl

/-- C1 (amended): when the character is absent from the primary face's
charmap and the matching backend returns no covering font,
`load_face_with_glyph` fails with `MissingFont` carrying the synthesized
description `"no-fallback-for"` + `Specific(char)`, but `face_for_glyph`
with `have_recursed = false` swallows that error via `unwrap_or` and returns
the primary `FontKey`; substitution happens inside the resolver, not in the
caller. -/
theorem c1_fallback_error_swallowed
    (bk : FcBackend) (gk : GlyphKeyData) (s : FreeTypeRasterizer) (face : FaceRec)
    (hface : alLookup s.faces gk.font_key = some face)
    (hzero : face.ft_face.charIndex gk.c = 0)
    (hmatch : bk.fontMatch (fallbackQuery gk.c s.pixel_size) = none) :
    load_face_with_glyph bk gk.c s =
      (PResult.err (.missingFont
        { name := "no-fallback-for", style := FontStyle.specific gk.c.toString }), s)
    ∧ face_for_glyph bk gk false s = (PResult.ok gk.font_key, s) := by
  have h1 : load_face_with_glyph bk gk.c s =
      (PResult.err (.missingFont
        { name := "no-fallback-for", style := FontStyle.specific gk.c.toString }), s) := by
    unfold load_face_with_glyph
    rw [hmatch]
  refine ⟨h1, ?_⟩
  unfold face_for_glyph
  rw [hface]
  simp [hzero, h1]

/-- C1 witness: the amended theorem applied at the concrete no-match state. -/
theorem c1_witness :
    load_face_with_glyph bkNoMatch 'z' stateOne =
      (PResult.err (.missingFont
        { name := "no-fallback-for", style := FontStyle.specific ('z').toString }), stateOne)
    ∧ face_for_glyph bkNoMatch gkZ false stateOne = (PResult.ok keyZero, stateOne) :=
  c1_fallback_error_swallowed bkNoMatch gkZ stateOne faceNoGlyph rfl rfl rfl

/-- C2 counterexample: `get_glyph` with a `FontKey` absent from the face
cache (and a backend with no fallback match) aborts — the source indexes
`self.faces[&font_key]` after the failed fallback — instead of returning
`FontNotLoaded`. -/
theorem c2_counterexample :
    (get_rendered_glyph bkNoMatch gkUnknown (FreeTypeRasterizer.new 1)).1 =
      PResult.panic := rfl

/-- C2 (amended): `metrics` against an unregistered `FontKey` returns
`FontNotLoaded` without aborting, but `get_glyph` never returns
`FontNotLoaded` for an unregistered key: it runs the fallback search, and
when the backend offers no match it panics indexing the face map. -/
theorem c2_unknown_key_behaviour :
    (∀ (s : FreeTypeRasterizer) (key : FontKey) (size : FontSize),
       alLookup s.faces key = none →
       metricsOp s key size = PResult.err FontErrorKind.fontNotLoaded) ∧
    (∀ (bk : FcBackend) (gk : GlyphKeyData) (s : FreeTypeRasterizer),
       alLookup s.faces gk.font_key = none → (∀ q, bk.fontMatch q = none) →
       (get_rendered_glyph bk gk s).1 = PResult.panic) := by
  constructor
  · intro s key size h
    unfold metricsOp
    rw [h]
  · intro bk gk s h hnone
    have hl : load_face_with_glyph bk gk.c s =
        (PResult.err (.missingFont
          { name := "no-fallback-for", style := FontStyle.specific gk.c.toString }), s) := by
      unfold load_face_with_glyph
      rw [hnone]
    have hf : face_for_glyph bk gk false s = (PResult.ok gk.font_key, s) := by
      unfold face_for_glyph
      rw [h]
      simp [hl]
    unfold get_rendered_glyph
    rw [hf]
    simp [h]

/-- C2 witness: both conjuncts of the amended theorem at a concrete
unregistered key. -/
theorem c2_witness :
    metricsOp (FreeTypeRasterizer.new 1) ⟨7⟩ ⟨24⟩ =
      PResult.err FontErrorKind.fontNotLoaded ∧
    (get_rendered_glyph bkNoMatch gkUnknown (FreeTypeRasterizer.new 1)).1 =
      PResult.panic :=
  ⟨c2_unknown_key_behaviour.1 _ _ _ rfl,
   c2_unknown_key_behaviour.2 bkNoMatch gkUnknown _ rfl (fun _ => rfl)⟩

def bitmapGray2 : FtBitmap :=
  { rows := 1, width := 1, pitch := 1, pixel_mode := FtPixelMode.gray2, buffer := [0] }

/-- C3 counterexample: a bitmap whose pixel-format tag is none of the five
handled ones (here `Gray2`) makes `normalize_buffer` abort
(`panic!("unhandled pixel mode: ...")`) — it does not produce any error
value, and the `Error` enum (`FontErrorKind`) has no `UnsupportedPixelMode`
variant at all. -/
theorem c3_counterexample : normalize_buffer bitmapGray2 = PResult.panic := rfl

/-- C3 (amended): for every bitmap whose pixel-format tag is not Lcd, LcdV,
Mono, Gray or Bgra, `normalize_buffer` panics (aborts the process) rather
than returning an error result; no `UnsupportedPixelMode` error exists in
the error type. -/
theorem c3_unhandled_mode_panics (b : FtBitmap)
    (h : b.pixel_mode = FtPixelMode.pmNone ∨ b.pixel_mode = FtPixelMode.gray2 ∨
         b.pixel_mode = FtPixelMode.gray4) :
    normalize_buffer b = PResult.panic := by
  unfold normalize_buffer
  rcases h with h | h | h <;> simp [h]

/-- C3 witness: the amended theorem at the concrete `Gray2` bitmap. -/
theorem c3_witness : normalize_buffer bitmapGray2 = PResult.panic :=
  c3_unhandled_mode_panics bitmapGray2 (Or.inr (Or.inl rfl))

/-- C5: the claim says `FontKey`s are globally unique and never reused, and
the source's own doc comment promises the same, but `FontKey::next` truncates
the process-wide `usize` counter `as u16`: keys repeat with period 65536, so
the 1st and 65537th allocations (counter values 0 and 65536) return the very
same key. -/
theorem c5_fontkey_token_wraps :
    (∀ n : Nat, (FontKey.next n).1 = (FontKey.next (n + 65536)).1) ∧
    (FontKey.next 0).1 = (FontKey.next 65536).1 ∧ (0 : Nat) ≠ 65536 := by
  refine ⟨fun n => ?_, by decide, by decide⟩
  simp [FontKey.next, Nat.add_mod_right]

/-- Lookup after an in-place update at the same key applies the update to
the stored value. -/
theorem alLookup_alUpdate_self {κ ν : Type} [DecidableEq κ]
    (l : List (κ × ν)) (k : κ) (f : ν → ν) :
    alLookup (alUpdate l k f) k = (alLookup l k).map f := by
  induction l with
  | nil => rfl
  | cons e rest ih =>
    by_cases h : e.1 = k
    · simp [alUpdate, alLookup, h]
    · simp only [alUpdate, List.map_cons] at ih ⊢
      rw [if_neg h]
      simp [alLookup, h, ih]

/-- Lookup after an in-place update at a different key is unchanged. -/
theorem alLookup_alUpdate_ne {κ ν : Type} [DecidableEq κ]
    (l : List (κ × ν)) (k k2 : κ) (f : ν → ν) (hne : k2 ≠ k) :
    alLookup (alUpdate l k f) k2 = alLookup l k2 := by
  induction l with
  | nil => rfl
  | cons e rest ih =>
    by_cases h : e.1 = k
    · rw [show alUpdate (e :: rest) k f = (e.1, f e.2) :: alUpdate rest k f from by
        simp [alUpdate, h]]
      have h2 : ¬(e.1 = k2) := by rw [h]; exact fun hc => hne hc.symm
      simp [alLookup, h2, ih]
    · rw [show alUpdate (e :: rest) k f = e :: alUpdate rest k f from by
        simp [alUpdate, h]]
      by_cases h3 : e.1 = k2
      · simp [alLookup, h3]
      · simp [alLookup, h3, ih]

/-- C9: cache-hit refresh asymmetry. `face_from_pattern` (the FontResolver
path) on a path-cache hit returns the cached key with the state — hence every
cached `Face` field — completely unchanged, while `load_face_with_glyph`
(the GlyphResolver fallback path) on a path-cache hit returns the cached key
and updates exactly the cached face's `pixelsize_fixup_factor` to the new
match's value, leaving all other faces and all other fields unchanged. -/
theorem c9_cache_hit_refresh_asymmetry :
    (∀ (bk : FcBackend) (pattern : FcMatched) (s : FreeTypeRasterizer)
       (path : String) (i : Int) (key : FontKey),
       pattern.file = some path → pattern.index = some i →
       alLookup s.keys path = some key →
       face_from_pattern bk pattern s = (PResult.ok (some key), s)) ∧
    (∀ (bk : FcBackend) (glyph : Char) (s : FreeTypeRasterizer) (m : FcMatched)
       (path : String) (i : Int) (key : FontKey) (face : FaceRec),
       bk.fontMatch (fallbackQuery glyph s.pixel_size) = some m →
       m.file = some path → m.index = some i →
       alLookup s.keys path = some key →
       alLookup s.faces key = some face →
       load_face_with_glyph bk glyph s =
         (PResult.ok key,
          { s with faces := alUpdate s.faces key (fun f =>
              { f with pixelsize_fixup_factor := m.pixelsizefixupfactor.getD 0 }) }) ∧
       alLookup (alUpdate s.faces key (fun f =>
           { f with pixelsize_fixup_factor := m.pixelsizefixupfactor.getD 0 })) key =
         some { face with pixelsize_fixup_factor := m.pixelsizefixupfactor.getD 0 } ∧
       (∀ k2, k2 ≠ key → alLookup (alUpdate s.faces key (fun f =>
           { f with pixelsize_fixup_factor := m.pixelsizefixupfactor.getD 0 })) k2 =
         alLookup s.faces k2)) := by
  constructor
  · intro bk pattern s path i key hfile hindex hk
    unfold face_from_pattern
    rw [hfile, hindex]
    simp [hk]
  · intro bk glyph s m path i key face hm hfile hindex hk hface
    refine ⟨?_, ?_, ?_⟩
    · unfold load_face_with_glyph
      rw [hm]
      simp [hfile, hindex, hk, hface]
    · rw [alLookup_alUpdate_self, hface]
      rfl
    · intro k2 hne
      exact alLookup_alUpdate_ne s.faces key k2 _ hne

/-- Concrete fontconfig match whose path is already cached in `stateOne`. -/
def matchedPrimary : FcMatched :=
  { file := some "/primary.ttf", index := some 0, scalable := some true,
    pixelsize := [], pixelsizefixupfactor := some (1/2), antialias := none,
    hintstyle := none, rgba := none, embeddedbitmap := none, color := none,
    lcdfilter := none }

/-- Backend that always matches `matchedPrimary`. -/
def bkPrimaryHit : FcBackend :=
  { fontMatch := fun _ => some matchedPrimary, newFace := fun _ _ => none }

/-- C9 witness: both hit paths at a concrete state. -/
theorem c9_witness :
    face_from_pattern bkNoMatch matchedPrimary stateOne =
      (PResult.ok (some keyZero), stateOne) ∧
    load_face_with_glyph bkPrimaryHit 'z' stateOne =
      (PResult.ok keyZero,
       { stateOne with faces := alUpdate stateOne.faces keyZero (fun f =>
           { f with pixelsize_fixup_factor :=
               matchedPrimary.pixelsizefixupfactor.getD 0 }) }) := by
  constructor
  · exact c9_cache_hit_refresh_asymmetry.1 bkNoMatch matchedPrimary stateOne
      "/primary.ttf" 0 keyZero rfl rfl rfl
  · exact (c9_cache_hit_refresh_asymmetry.2 bkPrimaryHit 'z' stateOne matchedPrimary
      "/primary.ttf" 0 keyZero faceNoGlyph rfl rfl rfl rfl rfl).1

/-- `face_from_pattern` uses the backend only through `newFace`. -/
theorem face_from_pattern_backend_eq (bk1 bk2 : FcBackend)
    (h : bk1.newFace = bk2.newFace) (p : FcMatched) (s : FreeTypeRasterizer) :
    face_from_pattern bk1 p s = face_from_pattern bk2 p s := by
  unfold face_from_pattern
  rw [h]

/-- `face_from_pattern` never touches the stored `pixel_size`. -/
theorem face_from_pattern_pixel_size (bk : FcBackend) (p : FcMatched)
    (s : FreeTypeRasterizer) :
    (face_from_pattern bk p s).2.pixel_size = s.pixel_size := by
  unfold face_from_pattern
  repeat' split
  all_goals try rfl
  all_goals by_cases hb : p.scalable.getD true = true <;> simp [hb]

/-- After `match_and_load` (the shared body of `get_matching_face` and
`get_specific_face`) the stored `pixel_size` is the pixel size of this
query, whatever the outcome. -/
theorem match_and_load_pixel_size (bk : FcBackend) (desc : FontDescData)
    (pattern : FcQuery) (ps : Rat) (s : FreeTypeRasterizer) :
    (match_and_load bk desc pattern ps s).2.pixel_size = ps := by
  unfold match_and_load
  rcases bk.fontMatch pattern with _ | m
  · rfl
  · have h2 := face_from_pattern_pixel_size bk m { s with pixel_size := ps }
    rcases hfp : face_from_pattern bk m { s with pixel_size := ps } with ⟨r, s2⟩
    rw [hfp] at h2
    rcases r with a | e | _
    · rcases a with _ | key <;> simpa [hfp] using h2
    · simpa [hfp] using h2
    · simpa [hfp] using h2

/-- C10: the pixel size placed in the fallback charset query is the
rasterizer's stored `pixel_size` field, not the size in the `GlyphKey`:
(1) the query built by `load_face_with_glyph` carries `charset = [glyph]`
and `pixelsize = pixel_size` and nothing else; (2) the result of
`load_face_with_glyph` depends on the matching backend only through its
value at exactly that query; (3) any `load_font` call (whatever its
outcome) leaves `pixel_size` equal to the DPI-scaled size of that call;
(4) `update_dpr` does not modify the stored `pixel_size`; (5) a fresh
rasterizer stores `pixel_size = 0`. -/
theorem c10_fallback_query_pixel_size :
    (∀ (glyph : Char) (ps : Rat),
       (fallbackQuery glyph ps).pixelsize = some ps ∧
       (fallbackQuery glyph ps).charset = some [glyph] ∧
       (fallbackQuery glyph ps).family = none ∧
       (fallbackQuery glyph ps).styleName = none ∧
       (fallbackQuery glyph ps).slant = none ∧
       (fallbackQuery glyph ps).weight = none) ∧
    (∀ (bk1 bk2 : FcBackend) (glyph : Char) (s : FreeTypeRasterizer),
       bk1.fontMatch (fallbackQuery glyph s.pixel_size) =
         bk2.fontMatch (fallbackQuery glyph s.pixel_size) →
       bk1.newFace = bk2.newFace →
       load_face_with_glyph bk1 glyph s = load_face_with_glyph bk2 glyph s) ∧
    (∀ (bk : FcBackend) (desc : FontDescData) (size : FontSize)
       (s : FreeTypeRasterizer),
       ((load_font bk desc size s).2).pixel_size =
         (FontSize.new (size.as_f32_pts * s.dpr * 96 / 72)).as_f32_pts) ∧
    (∀ (s : FreeTypeRasterizer) (r : Rat),
       (update_dpr s r).pixel_size = s.pixel_size) ∧
    (∀ r : Rat, (FreeTypeRasterizer.new r).pixel_size = 0) := by
  refine ⟨fun glyph ps => ⟨rfl, rfl, rfl, rfl, rfl, rfl⟩, ?_, ?_, fun s r => rfl,
    fun r => rfl⟩
  · intro bk1 bk2 glyph s h1 h2
    unfold load_face_with_glyph
    rw [h1]
    simp only [face_from_pattern_backend_eq bk1 bk2 h2]
  · intro bk desc size s
    unfold load_font get_face
    rcases desc.style with style | ⟨slant, weight⟩
    · simp [get_specific_face, match_and_load_pixel_size]
    · simp [get_matching_face, match_and_load_pixel_size]

/-- Backend differing from `bkNoMatch` on family queries but agreeing on
the charset fallback query. -/
def bkAltFamily : FcBackend :=
  { fontMatch := fun q => if q.family = some "Alt" then some matchedPrimary else none
    newFace := fun _ _ => none }

/-- Concrete description used by witnesses. -/
def descSans : FontDescData :=
  { name := "Sans"
    style := FontStyle.description FontSlant.normal FontWeight.normal }

/-- C10 witness: the components of the theorem at concrete inputs. -/
theorem c10_witness :
    (fallbackQuery 'q' 24).pixelsize = some 24 ∧
    load_face_with_glyph bkAltFamily 'q' stateOne =
      load_face_with_glyph bkNoMatch 'q' stateOne ∧
    ((load_font bkNoMatch descSans ⟨24⟩ (FreeTypeRasterizer.new 1)).2).pixel_size =
      (FontSize.new ((FontSize.mk 24).as_f32_pts * 1 * 96 / 72)).as_f32_pts ∧
    (update_dpr stateOne 2).pixel_size = stateOne.pixel_size :=
  ⟨(c10_fallback_query_pixel_size.1 'q' 24).1,
   c10_fallback_query_pixel_size.2.1 bkAltFamily bkNoMatch 'q' stateOne rfl rfl,
   c10_fallback_query_pixel_size.2.2.1 bkNoMatch descSans ⟨24⟩ (FreeTypeRasterizer.new 1),
   c10_fallback_query_pixel_size.2.2.2.1 stateOne 2⟩

/-- Size metrics with `x_scale = 0` (as a backend may report). -/
def smZeroScale : FtSizeMetrics :=
  { height := 640, descender := -128, x_scale := 0, y_ppem := 10, max_advance := 640 }

/-- Face handle with a nonzero raw underline position but zero `x_scale`. -/
def faceUnderline : FtFaceHandle :=
  { charIndex := fun _ => 1
    underline_position := 100
    underline_thickness := 7
    size_metrics := some smZeroScale
    has_color := false
    os2_strikeout := some (0, 0)
    loadChar0 := some 640
    setCharSize := fun _ => true
    loadRenderGlyph := fun _ _ _ => none }

def keyOne : FontKey := ⟨1⟩

def faceRecUnderline : FaceRec :=
  { ft_face := faceUnderline
    key := keyOne
    load_flags := 0
    render_mode := FtRenderMode.normal
    lcd_filter := 1
    non_scalable := none
    has_color := false
    pixelsize_fixup_factor := 0 }

def stateUnderline : FreeTypeRasterizer :=
  { faces := [(keyOne, faceRecUnderline)]
    keys := [("/u.ttf", keyOne)]
    dpr := 1
    pixel_size := 24
    tokenCounter := 2 }

/-- The metrics the source computes for `stateUnderline`: descent = -2 and,
because `x_scale = 0` makes the scaled underline position compare equal to
0, the fallback pair (position = -1, thickness = round(-2/5) = 0). -/
def metricsUnderline : MetricsRec :=
  { average_advance := 10
    line_height := 10
    descent := -2
    underline_position := -1
    underline_thickness := 0
    strikeout_position := 0
    strikeout_thickness := 0 }

/-- C7 counterexample: a face with raw underline position 100 (nonzero) but
`x_scale = 0`. The claim says the fallback is applied exactly when the raw
position is 0, and that for nonzero raw position the returned position is
raw × x_scale ÷ 64 = 0; the code instead checks the scaled position and
returns the fallback value -1. -/
theorem c7_counterexample :
    faceUnderline.underline_position = 100 ∧
    metricsOp stateUnderline keyOne ⟨24⟩ = PResult.ok metricsUnderline ∧
    metricsUnderline.underline_position = -1 ∧
    (faceUnderline.underline_position : Rat) * ((smZeroScale.x_scale : Rat) / 65536) / 64 = 0 ∧
    (-1 : Rat) ≠ 0 := by
  refine ⟨rfl, ?_, rfl, by norm_num [faceUnderline, smZeroScale], by norm_num⟩
  unfold metricsOp full_metrics
  norm_num [stateUnderline, alLookup, keyOne, faceRecUnderline, faceUnderline,
    smZeroScale, metricsUnderline, rustRound]
  have h1 : Int.div 640 64 = 10 := by decide
  have h2 : Int.tdiv 128 64 = 2 := by decide
  rw [h1, h2]
  norm_num

/-- C7 (amended): `metrics` applies the underline fallback exactly when the
scaled underline position (raw × x_scale ÷ 64) equals 0 — equivalently,
when the raw position is 0 or `x_scale` is 0; whenever the scaled position
is nonzero, the returned position and thickness are the raw metrics
× x_scale ÷ 64. -/
theorem c7_underline_fallback_trigger
    (s : FreeTypeRasterizer) (key : FontKey) (size : FontSize) (face : FaceRec)
    (sm : FtSizeMetrics) (m : MetricsRec)
    (hface : alLookup s.faces key = some face)
    (hsm : face.ft_face.size_metrics = some sm)
    (hm : metricsOp s key size = PResult.ok m) :
    ((face.ft_face.underline_position : Rat) * ((sm.x_scale : Rat) / 65536) / 64 = 0 ↔
       (face.ft_face.underline_position = 0 ∨ sm.x_scale = 0)) ∧
    ((face.ft_face.underline_position : Rat) * ((sm.x_scale : Rat) / 65536) / 64 = 0 →
       m.underline_position = ((Int.div sm.descender 64 : Int) : Rat) / 2 ∧
       m.underline_thickness =
         ((rustRound (((Int.div sm.descender 64 : Int) : Rat) / 5) : Int) : Rat)) ∧
    ((face.ft_face.underline_position : Rat) * ((sm.x_scale : Rat) / 65536) / 64 ≠ 0 →
       m.underline_position =
         (face.ft_face.underline_position : Rat) * ((sm.x_scale : Rat) / 65536) / 64 ∧
       m.underline_thickness =
         (face.ft_face.underline_thickness : Rat) * ((sm.x_scale : Rat) / 65536) / 64) := by
  have hiff : ((face.ft_face.underline_position : Rat) * ((sm.x_scale : Rat) / 65536) / 64 = 0)
      ↔ (face.ft_face.underline_position = 0 ∨ sm.x_scale = 0) := by
    rw [div_eq_zero_iff, mul_eq_zero, div_eq_zero_iff]
    norm_num
  have hfull : full_metrics s key =
      PResult.ok { size_metrics := sm,
                   cell_width := ((match face.ft_face.loadChar0 with
                     | some adv => Int.div adv 64
                     | none => Int.div sm.max_advance 64 : Int) : Rat) } := by
    unfold full_metrics
    rw [hface]
    simp only [hsm]
  unfold metricsOp at hm
  rw [hface, hfull] at hm
  simp only [PResult.ok.injEq] at hm
  refine ⟨hiff, ?_, ?_⟩
  · intro h0
    rw [← hm]
    simp only [if_pos h0]
    exact ⟨trivial, trivial⟩
  · intro h0
    rw [← hm]
    simp only [if_neg h0]
    exact ⟨trivial, trivial⟩

/-- C7 witness: the amended theorem at the concrete zero-`x_scale` state. -/
theorem c7_witness :
    ((faceRecUnderline.ft_face.underline_position : Rat) *
        ((smZeroScale.x_scale : Rat) / 65536) / 64 = 0 ↔
      (faceRecUnderline.ft_face.underline_position = 0 ∨ smZeroScale.x_scale = 0)) ∧
    metricsUnderline.underline_position =
      ((Int.div smZeroScale.descender 64 : Int) : Rat) / 2 := by
  have h := c7_underline_fallback_trigger stateUnderline keyOne ⟨24⟩
    faceRecUnderline smZeroScale metricsUnderline rfl rfl c7_counterexample.2.1
  exact ⟨h.1, (h.2.1 (by norm_num [faceRecUnderline, faceUnderline, smZeroScale])).1⟩

/-- Lookup after insert at the inserted key. -/
theorem alLookup_alInsert_self {κ ν : Type} [DecidableEq κ]
    (l : List (κ × ν)) (k : κ) (v : ν) :
    alLookup (alInsert l k v) k = some v := by
  simp [alInsert, alLookup]

/-- The inserted key occurs exactly once after insert. -/
theorem alInsert_filter_length {κ ν : Type} [DecidableEq κ]
    (l : List (κ × ν)) (k : κ) (v : ν) :
    ((alInsert l k v).filter (fun e => decide (e.1 = k))).length = 1 := by
  simp [alInsert, List.filter_cons, List.filter_filter]

/-- A key found by lookup in a map with no duplicate keys occurs exactly
once. -/
theorem alLookup_filter_length {κ ν : Type} [DecidableEq κ]
    (l : List (κ × ν)) (k : κ) (v : ν)
    (hnd : (l.map Prod.fst).Nodup) (h : alLookup l k = some v) :
    (l.filter (fun e => decide (e.1 = k))).length = 1 := by
  induction l with
  | nil => simp [alLookup] at h
  | cons e rest ih =>
    rw [List.map_cons, List.nodup_cons] at hnd
    by_cases hk : e.1 = k
    · rw [List.filter_cons]
      simp only [decide_eq_true_eq]
      rw [if_pos hk]
      have hrest : rest.filter (fun e => decide (e.1 = k)) = [] := by
        rw [List.filter_eq_nil_iff]
        intro x hx
        simp only [decide_eq_true_eq]
        intro hxk
        exact hnd.1 (hk ▸ hxk ▸ List.mem_map_of_mem Prod.fst hx)
      simp [hrest]
    · rw [List.filter_cons]
      simp only [decide_eq_true_eq]
      rw [if_neg hk]
      unfold alLookup at h
      rw [if_neg hk] at h
      exact ih hnd.2 h

/-- Insert preserves key-nodup. -/
theorem alInsert_nodup {κ ν : Type} [DecidableEq κ]
    (l : List (κ × ν)) (k : κ) (v : ν) (hnd : (l.map Prod.fst).Nodup) :
    ((alInsert l k v).map Prod.fst).Nodup := by
  simp only [alInsert, List.map_cons, List.nodup_cons]
  constructor
  · intro hmem
    obtain ⟨e, he, hek⟩ := List.mem_map.mp hmem
    have := List.of_mem_filter he
    simp only [Bool.not_eq_true', decide_eq_false_iff_not] at this
    exact this hek
  · exact ((List.filter_sublist l).map Prod.fst).nodup hnd

/-- `face_from_pattern` on a path-cache hit returns the cached key and the
unchanged state. -/
theorem face_from_pattern_hit (bk : FcBackend) (m : FcMatched)
    (s : FreeTypeRasterizer) (path : String) (i : Int) (k : FontKey)
    (hfile : m.file = some path) (hindex : m.index = some i)
    (hk : alLookup s.keys path = some k) :
    face_from_pattern bk m s = (PResult.ok (some k), s) := by
  unfold face_from_pattern
  rw [hfile, hindex]
  simp [hk]

/-- `face_from_pattern` never touches the device pixel ratio. -/
theorem face_from_pattern_dpr (bk : FcBackend) (p : FcMatched)
    (s : FreeTypeRasterizer) :
    (face_from_pattern bk p s).2.dpr = s.dpr := by
  unfold face_from_pattern
  repeat' split
  all_goals try rfl
  all_goals by_cases hb : p.scalable.getD true = true <;> simp [hb]

/-- Inversion of a successful fresh-or-hit `face_from_pattern`: the match
carried a path and an index, the returned key is indexed under that path,
`pixel_size` and `dpr` are untouched, key-nodup is preserved, and the path
occurs exactly once in the key index. -/
theorem face_from_pattern_ok_inv (bk : FcBackend) (m : FcMatched)
    (s s2 : FreeTypeRasterizer) (k : FontKey)
    (hnd : (s.keys.map Prod.fst).Nodup)
    (h : face_from_pattern bk m s = (PResult.ok (some k), s2)) :
    ∃ path, m.file = some path ∧ (∃ i, m.index = some i) ∧
      alLookup s2.keys path = some k ∧
      s2.pixel_size = s.pixel_size ∧ s2.dpr = s.dpr ∧
      (s2.keys.map Prod.fst).Nodup ∧
      (s2.keys.filter (fun e => decide (e.1 = path))).length = 1 := by
  unfold face_from_pattern at h
  rcases hfile : m.file with _ | path <;> rw [hfile] at h
  · simp at h
  · rcases hindex : m.index with _ | i <;> rw [hindex] at h
    · simp at h
    · try simp only [] at h
      rcases hk : alLookup s.keys path with _ | key <;> rw [hk] at h
      · try simp only [] at h
        rcases hnf : bk.newFace path i with _ | ft <;> rw [hnf] at h
        · simp at h
        · try simp only [] at h
          rcases hsc : (if m.scalable.getD true = true then PResult.ok none
              else match m.pixelsize with
                   | p :: _ => PResult.ok (some p)
                   | [] => PResult.panic : PResult (Option Rat)) with ns | e | _ <;>
            rw [hsc] at h <;> try simp only [] at h
          · simp only [Prod.mk.injEq, PResult.ok.injEq, Option.some.injEq] at h
            obtain ⟨hkey, hs2⟩ := h
            refine ⟨path, rfl, ⟨i, rfl⟩, ?_, ?_, ?_, ?_, ?_⟩
            · rw [← hs2, ← hkey]
              exact alLookup_alInsert_self s.keys path _
            · rw [← hs2]
            · rw [← hs2]
            · rw [← hs2]
              exact alInsert_nodup s.keys path _ hnd
            · rw [← hs2]
              exact alInsert_filter_length s.keys path _
          · simp at h
          · simp at h
      · try simp only [] at h
        simp only [Prod.mk.injEq, PResult.ok.injEq, Option.some.injEq] at h
        obtain ⟨hkey, hs2⟩ := h
        refine ⟨path, rfl, ⟨i, rfl⟩, ?_, ?_, ?_, ?_, ?_⟩
        · rw [← hs2, hk, hkey]
        · rw [← hs2]
        · rw [← hs2]
        · rw [← hs2]; exact hnd
        · rw [← hs2]
          exact alLookup_filter_length s.keys path key hnd hk

/-- `match_and_load` never touches the device pixel ratio. -/
theorem match_and_load_dpr (bk : FcBackend) (desc : FontDescData)
    (pattern : FcQuery) (ps : Rat) (s : FreeTypeRasterizer) :
    (match_and_load bk desc pattern ps s).2.dpr = s.dpr := by
  unfold match_and_load
  rcases bk.fontMatch pattern with _ | m
  · rfl
  · have h2 := face_from_pattern_dpr bk m { s with pixel_size := ps }
    rcases hfp : face_from_pattern bk m { s with pixel_size := ps } with ⟨r, s2⟩
    rw [hfp] at h2
    rcases r with a | e | _
    · rcases a with _ | key <;> simpa [hfp] using h2
    · simpa [hfp] using h2
    · simpa [hfp] using h2

/-- A record update writing the value a field already holds is the
identity. -/
theorem set_pixel_size_self (s : FreeTypeRasterizer) (ps : Rat)
    (h : s.pixel_size = ps) : { s with pixel_size := ps } = s := by
  rw [← h]

/-- A successful `match_and_load` is idempotent: re-running the same query
on the resulting state returns the same key and the very same state (so no
second `Face` is ever created), the key index stays duplicate-free, and the
matched path is indexed exactly once, mapping to the returned key. -/
theorem match_and_load_idem (bk : FcBackend) (desc : FontDescData)
    (pattern : FcQuery) (ps : Rat) (s0 s1 : FreeTypeRasterizer) (k1 : FontKey)
    (hnd : (s0.keys.map Prod.fst).Nodup)
    (h1 : match_and_load bk desc pattern ps s0 = (PResult.ok k1, s1)) :
    match_and_load bk desc pattern ps s1 = (PResult.ok k1, s1) ∧
    (s1.keys.map Prod.fst).Nodup ∧
    ∃ path, alLookup s1.keys path = some k1 ∧
      (s1.keys.filter (fun e => decide (e.1 = path))).length = 1 := by
  unfold match_and_load at h1
  rcases hm : bk.fontMatch pattern with _ | m
  · simp [hm] at h1
  · rcases hfp : face_from_pattern bk m { s0 with pixel_size := ps } with ⟨r, s2⟩
    rcases r with a | e | _
    · rcases a with _ | key
      · simp [hm, hfp] at h1
      · simp only [hm, hfp] at h1
        simp only [Prod.mk.injEq, PResult.ok.injEq] at h1
        obtain ⟨hkey, hs⟩ := h1
        obtain ⟨path, hfile, ⟨i, hindex⟩, hlook, hps, hdpr, hnd2, hcount⟩ :=
          face_from_pattern_ok_inv bk m { s0 with pixel_size := ps } s2 key hnd hfp
        subst hs
        subst hkey
        have hsec : match_and_load bk desc pattern ps s2 = (PResult.ok key, s2) := by
          unfold match_and_load
          simp only [hm]
          rw [set_pixel_size_self s2 ps hps,
            face_from_pattern_hit bk m s2 path i key hfile hindex hlook]
        exact ⟨hsec, hnd2, path, hlook, hcount⟩
    · simp [hm, hfp] at h1
    · simp [hm, hfp] at h1

/-- C4: idempotence of `loadFont` with a deterministic backend. If
`load_font` succeeds with key `k1` and state `s1`, running the identical
call again returns `k1` with state exactly `s1` (no second `Face` or index
entry is created), and in `s1` the matched file path is indexed exactly
once, mapping to `k1`. -/
theorem c4_load_font_idempotent (bk : FcBackend) (desc : FontDescData)
    (size : FontSize) (s0 s1 : FreeTypeRasterizer) (k1 : FontKey)
    (hnd : (s0.keys.map Prod.fst).Nodup)
    (h1 : load_font bk desc size s0 = (PResult.ok k1, s1)) :
    load_font bk desc size s1 = (PResult.ok k1, s1) ∧
    (s1.keys.map Prod.fst).Nodup ∧
    ∃ path, alLookup s1.keys path = some k1 ∧
      (s1.keys.filter (fun e => decide (e.1 = path))).length = 1 := by
  unfold load_font get_face at h1 ⊢
  rcases hstyle : desc.style with style | ⟨slant, weight⟩ <;>
    simp only [hstyle, get_specific_face, get_matching_face] at h1 ⊢
  · have hdpr : s1.dpr = s0.dpr := by
      have := match_and_load_dpr bk desc
        { family := some desc.name, styleName := some style, slant := none,
          weight := none,
          pixelsize := some (FontSize.new (size.as_f32_pts * s0.dpr * 96 / 72)).as_f32_pts,
          charset := none }
        (FontSize.new (size.as_f32_pts * s0.dpr * 96 / 72)).as_f32_pts s0
      rw [h1] at this
      exact this
    rw [hdpr]
    exact match_and_load_idem bk desc _ _ s0 s1 k1 hnd h1
  · have hdpr : s1.dpr = s0.dpr := by
      have := match_and_load_dpr bk desc
        { family := some desc.name, styleName := none,
          slant := some slant.intoFontconfigType,
          weight := some weight.intoFontconfigType,
          pixelsize := some (FontSize.new (size.as_f32_pts * s0.dpr * 96 / 72)).as_f32_pts,
          charset := none }
        (FontSize.new (size.as_f32_pts * s0.dpr * 96 / 72)).as_f32_pts s0
      rw [h1] at this
      exact this
    rw [hdpr]
    exact match_and_load_idem bk desc _ _ s0 s1 k1 hnd h1

/-- A fresh (uncached) fontconfig match. -/
def matchedNew : FcMatched :=
  { file := some "/new.ttf", index := some 0, scalable := some true,
    pixelsize := [], pixelsizefixupfactor := none, antialias := none,
    hintstyle := none, rgba := none, embeddedbitmap := none, color := none,
    lcdfilter := none }

/-- Deterministic backend that always matches `matchedNew` and loads it. -/
def bkLoad : FcBackend :=
  { fontMatch := fun _ => some matchedNew
    newFace := fun _ _ => some testFaceNoGlyph }

/-- The state after the first successful `load_font` on a fresh rasterizer. -/
def sFirst : FreeTypeRasterizer :=
  (load_font bkLoad descSans ⟨24⟩ (FreeTypeRasterizer.new 1)).2

/-- C4 witness: a concrete first load returns key 0; the theorem then gives
the identical second call and the single index entry. -/
theorem c4_witness :
    load_font bkLoad descSans ⟨24⟩ sFirst = (PResult.ok keyZero, sFirst) ∧
    alLookup sFirst.keys "/new.ttf" = some keyZero := by
  have h := c4_load_font_idempotent bkLoad descSans ⟨24⟩ (FreeTypeRasterizer.new 1)
    sFirst keyZero (by simp [FreeTypeRasterizer.new]) rfl
  exact ⟨h.1, rfl⟩

/-- Concrete 2x2 color glyph for the downsampler. -/
def glyphC6 : RasterizedGlyphRec :=
  { c := 'A', width := 2, height := 2, top := 4, left := 10, colored := true,
    buf := [1, 2, 3, 4, 5, 6, 7, 8, 9, 10, 11, 12] }

/-- What `downsample_bitmap glyphC6 (1/2)` produces: a 1x1 glyph whose pixel
averages the four source pixels, `top = (trunc(4 * 0.5) + 4 / 2) / 2 = 2`,
and `left = trunc(10 * 0.5) = 5` — scaled from `left`, not from `top`. -/
def glyphC6out : RasterizedGlyphRec :=
  { c := 'A', width := 1, height := 1, top := 2, left := 5, colored := true,
    buf := [5, 6, 7] }

/-- C6 counterexample: the claim predicts `left = top × fixupFactor =
trunc(4 × 0.5) = 2`, but the code computes `left = trunc(left × fixupFactor)
= 5`. -/
theorem c6_counterexample :
    downsample_bitmap glyphC6 (1/2) = PResult.ok glyphC6out ∧
    f32toI32 ((glyphC6.top : Rat) * (1/2)) = 2 ∧
    glyphC6out.left ≠ f32toI32 ((glyphC6.top : Rat) * (1/2)) := by
  refine ⟨?_, ?_, ?_⟩
  · norm_num [downsample_bitmap, glyphC6, glyphC6out, f64toUsize, f32ceilToUsize,
      f32toI32, ratTrunc, usizeToI32, gridLines, gridCols, boxPixel, boxLines,
      boxCols, idxP, f32divCast, F32x.fmax, F32x.ceilToUsize]
    decide
  · norm_num [f32toI32, ratTrunc, glyphC6]
  · norm_num [f32toI32, ratTrunc, glyphC6, glyphC6out]

/-- The box step as the claim defines it:
`ceil(max(sourceWidth/targetWidth, sourceHeight/targetHeight))`, with the
source dimensions read back as usize and the target dimensions
`floor(dimension * fixupFactor)`, exactly as `downsample_bitmap` computes
`advance_step`. -/
def stepSpec (g : RasterizedGlyphRec) (fixup : Rat) : Nat :=
  (F32x.fmax
    (f32divCast (f64toUsize ((g.width : Rat))) (f64toUsize ((g.width : Rat) * fixup)))
    (f32divCast (f64toUsize ((g.height : Rat))) (f64toUsize ((g.height : Rat) * fixup)))).ceilToUsize

/-- C6 (amended): for fixupFactor ≤ 1.0, a successful downsample sets the
output `top` to the truncating integer average of trunc(top × fixupFactor)
and top / step (step cast to i32), and the output `left` to
trunc(left × fixupFactor) — a pure scale of `left`, not of `top`. -/
theorem c6_downsample_top_left_formulas (g g2 : RasterizedGlyphRec) (fixup : Rat)
    (hle : fixup ≤ 1)
    (h : downsample_bitmap g fixup = PResult.ok g2) :
    g2.top = Int.div (f32toI32 ((g.top : Rat) * fixup)
        + Int.div g.top (usizeToI32 (stepSpec g fixup))) 2 ∧
    g2.left = f32toI32 ((g.left : Rat) * fixup) ∧
    g2.width = usizeToI32 (f64toUsize ((g.width : Rat) * fixup)) ∧
    g2.height = usizeToI32 (f64toUsize ((g.height : Rat) * fixup)) := by
  unfold downsample_bitmap at h
  rw [if_neg (not_lt.mpr hle)] at h
  simp only [] at h
  split at h
  · exact absurd h (by simp)
  · exact absurd h (by simp)
  · split at h
    · exact absurd h (by simp)
    · simp only [PResult.ok.injEq] at h
      rw [← h]
      exact ⟨rfl, rfl, rfl, rfl⟩

/-- C6 witness: the amended formulas at the concrete 2x2 glyph. -/
theorem c6_witness :
    glyphC6out.top = Int.div (f32toI32 ((glyphC6.top : Rat) * (1/2))
        + Int.div glyphC6.top (usizeToI32 (stepSpec glyphC6 (1/2)))) 2 ∧
    glyphC6out.left = f32toI32 ((glyphC6.left : Rat) * (1/2)) := by
  have hds : downsample_bitmap glyphC6 (1/2) = PResult.ok glyphC6out := by
    norm_num [downsample_bitmap, glyphC6, glyphC6out, f64toUsize, f32ceilToUsize,
      f32toI32, ratTrunc, usizeToI32, gridLines, gridCols, boxPixel, boxLines,
      boxCols, idxP, f32divCast, F32x.fmax, F32x.ceilToUsize]
    decide
  have h := c6_downsample_top_left_formulas glyphC6 glyphC6out (1/2) (by norm_num) hds
  exact ⟨h.1, h.2.1⟩

/-- `idxP` succeeds in bounds. -/
theorem idxP_ok (l : List Nat) (i : Nat) (h : i < l.length) :
    idxP l i = PResult.ok (l.getD i 0) := by
  unfold idxP
  have hg : l.get? i = some (l.getD i 0) := by
    simp [List.getD, List.getElem?_eq_getElem h]
  rw [hg]

/-- One Mono output pixel, as the claim describes it: the bit of the byte at
row-base + `j / 8`, taken MSB-first (`7 - j % 8`), mapped to 0 or 255 and
replicated three times. -/
def monoBitSpec (buf : List Nat) (base : Nat) (j : Nat) : List Nat :=
  [((buf.getD (base + j / 8) 0 >>> (7 - j % 8)) &&& 1) * 255,
   ((buf.getD (base + j / 8) 0 >>> (7 - j % 8)) &&& 1) * 255,
   ((buf.getD (base + j / 8) 0 >>> (7 - j % 8)) &&& 1) * 255]

theorem monoBitSpec_small (buf : List Nat) (base : Nat) (j : Nat) (h : j < 8) :
    monoBitSpec buf base j =
      [((buf.getD base 0 >>> (7 - j)) &&& 1) * 255,
       ((buf.getD base 0 >>> (7 - j)) &&& 1) * 255,
       ((buf.getD base 0 >>> (7 - j)) &&& 1) * 255] := by
  unfold monoBitSpec
  rw [Nat.div_eq_of_lt h, Nat.mod_eq_of_lt h, Nat.add_zero]

theorem monoBitSpec_shift (buf : List Nat) (base : Nat) (j : Nat) :
    monoBitSpec buf (base + 1) j = monoBitSpec buf base (8 + j) := by
  unfold monoBitSpec
  have h1 : (8 + j) / 8 = j / 8 + 1 := by
    rw [Nat.add_comm]
    exact Nat.add_div_right j (by norm_num)
  have h2 : (8 + j) % 8 = j % 8 := Nat.add_mod_left 8 j
  have h3 : base + 1 + j / 8 = base + (j / 8 + 1) := by omega
  rw [h1, h2, h3]

/-- `unpack_byte` emits, MSB-first from `bit`, each bit as 0 or 255 three
times. -/
theorem unpack_byte_eq (byte : Nat) :
    ∀ (count bit : Nat), count ≤ bit + 1 →
      unpack_byte byte count bit = (List.range count).flatMap
        (fun k => [((byte >>> (bit - k)) &&& 1) * 255,
                   ((byte >>> (bit - k)) &&& 1) * 255,
                   ((byte >>> (bit - k)) &&& 1) * 255])
  | 0, _, _ => by simp [unpack_byte]
  | c + 1, bit, h => by
    rw [List.range_succ_eq_map]
    simp only [unpack_byte, List.flatMap_cons, List.flatMap_map]
    rw [unpack_byte_eq byte c (bit - 1) (by omega)]
    rw [show List.flatMap (List.range c)
        (fun k => (fun k => [((byte >>> (bit - k)) &&& 1) * 255,
                   ((byte >>> (bit - k)) &&& 1) * 255,
                   ((byte >>> (bit - k)) &&& 1) * 255]) k.succ) =
      List.flatMap (List.range c)
        (fun k => [((byte >>> (bit - 1 - k)) &&& 1) * 255,
                   ((byte >>> (bit - 1 - k)) &&& 1) * 255,
                   ((byte >>> (bit - 1 - k)) &&& 1) * 255]) from
      List.flatMap_congr (fun x _ => by
        have hx : bit - x.succ = bit - 1 - x := by omega
        simp only [hx])]
    simp

set_option maxRecDepth 4096 in
/-- The Mono inner loop produces exactly the claim's per-pixel description,
provided the fuel covers the columns and every byte it reads is in
bounds. -/
theorem monoRowGo_eq (buf : List Nat) (offset : Nat) :
    ∀ (fuel columns byteIdx : Nat), columns ≤ fuel →
      offset + byteIdx + (columns + 7) / 8 ≤ buf.length →
      monoRowGo buf offset fuel columns byteIdx =
        PResult.ok ((List.range columns).flatMap (monoBitSpec buf (offset + byteIdx)))
  | fuel, 0, byteIdx, _, _ => by simp [monoRowGo]
  | 0, c + 1, _, hle, _ => by omega
  | fuel + 1, c + 1, byteIdx, hle, hlen => by
    have hbyte : offset + byteIdx < buf.length := by
      have h8 : 1 ≤ (c + 1 + 7) / 8 := (Nat.one_le_div_iff (by norm_num)).mpr (by omega)
      omega
    simp only [monoRowGo]
    rw [idxP_ok buf (offset + byteIdx) hbyte]
    by_cases h8 : c + 1 ≤ 8
    · have hmin : min 8 (c + 1) = c + 1 := Nat.min_eq_right h8
      rw [hmin]
      have hrest : monoRowGo buf offset fuel (c + 1 - (c + 1)) (byteIdx + 1) =
          PResult.ok [] := by
        rw [Nat.sub_self]
        simp [monoRowGo]
      rw [hrest]
      simp only [Bind.bind, PResult.bindR, Pure.pure]
      rw [unpack_byte_eq (buf.getD (offset + byteIdx) 0) (c + 1) 7 (by omega)]
      rw [List.append_nil]
      rw [List.flatMap_congr (fun j hj => monoBitSpec_small buf (offset + byteIdx) j
        (by have := List.mem_range.mp hj; omega))]
    · have hmin : min 8 (c + 1) = 8 := Nat.min_eq_left (by omega)
      rw [hmin]
      have hdiv : (c + 1 + 7) / 8 = c / 8 + 1 := by
        have : c + 1 + 7 = c + 8 := by omega
        rw [this]
        exact Nat.add_div_right c (by norm_num)
      have hrest := monoRowGo_eq buf offset fuel (c + 1 - 8) (byteIdx + 1)
        (by omega)
        (by
          have h1 : c + 1 - 8 + 7 = c := by omega
          rw [h1]
          omega)
      rw [hrest]
      simp only [Bind.bind, PResult.bindR, Pure.pure]
      rw [unpack_byte_eq (buf.getD (offset + byteIdx) 0) 8 7 (by omega)]
      have hsplit : List.range (c + 1) = List.range 8 ++ (List.range (c + 1 - 8)).map (8 + ·) := by
        have : c + 1 = 8 + (c + 1 - 8) := by omega
        rw [this, List.range_add]
        have hback : 8 + (c + 1 - 8) - 8 = c + 1 - 8 := by omega
        rw [hback]
      rw [hsplit, List.flatMap_append, List.flatMap_map]
      have hA : (List.range 8).flatMap
          (fun k => [((buf.getD (offset + byteIdx) 0 >>> (7 - k)) &&& 1) * 255,
                     ((buf.getD (offset + byteIdx) 0 >>> (7 - k)) &&& 1) * 255,
                     ((buf.getD (offset + byteIdx) 0 >>> (7 - k)) &&& 1) * 255]) =
          (List.range 8).flatMap (monoBitSpec buf (offset + byteIdx)) :=
        List.flatMap_congr (fun j hj => (monoBitSpec_small buf (offset + byteIdx) j
          (List.mem_range.mp hj)).symm)
      have hB : (List.range (c + 1 - 8)).flatMap
          (monoBitSpec buf (offset + (byteIdx + 1))) =
          (List.range (c + 1 - 8)).flatMap
            (fun a => monoBitSpec buf (offset + byteIdx) (8 + a)) := by
        rw [show offset + (byteIdx + 1) = offset + byteIdx + 1 from by omega]
        exact List.flatMap_congr (fun j _ => monoBitSpec_shift buf (offset + byteIdx) j)
      rw [hA, hB]

/-- The counted concatenation loop of successful chunks is the flatMap of
those chunks over the index range. -/
theorem catRange_ok (f : Nat → PResult (List Nat)) (g : Nat → List Nat) :
    ∀ n : Nat, (∀ i, i < n → f i = PResult.ok (g i)) →
      catRange f n = PResult.ok ((List.range n).flatMap g)
  | 0, _ => by simp [catRange]
  | n + 1, h => by
    simp only [catRange]
    rw [catRange_ok f g n (fun i hi => h i (by omega)), h n (by omega)]
    simp only [Bind.bind, PResult.bindR, Pure.pure]
    rw [List.range_succ, List.flatMap_append]
    simp

/-- C8: Mono normalization unpacks each row's bits MSB-first with the
bitmap's pitch — not `width/8` — as the row stride, mapping each bit to 0 or
255 replicated three times per pixel (`monoBitSpec`); and the byte
`0b10110000` with count 8 unpacks to exactly
[255,255,255, 0,0,0, 255,255,255, 255,255,255, 0,0,0, 0,0,0, 0,0,0, 0,0,0].
The hypothesis says every byte the loop reads lies inside the buffer (true
of every real FreeType bitmap, whose buffer spans `pitch` bytes per row). -/
theorem c8_mono_normalization (b : FtBitmap) (hm : b.pixel_mode = FtPixelMode.mono)
    (hlen : ∀ i, i < b.rows.toNat →
      i * b.pitch.natAbs + (b.width.toNat + 7) / 8 ≤ b.buffer.length) :
    normalize_buffer b = PResult.ok (b.rows, b.width,
      (List.range b.rows.toNat).flatMap (fun i =>
        (List.range b.width.toNat).flatMap (monoBitSpec b.buffer (i * b.pitch.natAbs)))) ∧
    unpack_byte 0b10110000 8 7 =
      [255, 255, 255, 0, 0, 0, 255, 255, 255, 255, 255, 255,
       0, 0, 0, 0, 0, 0, 0, 0, 0, 0, 0, 0] := by
  constructor
  · unfold normalize_buffer
    rw [hm]
    simp only []
    have hrow : ∀ i, i < b.rows.toNat →
        monoRowGo b.buffer (i * b.pitch.natAbs) b.width.toNat b.width.toNat 0 =
          PResult.ok ((List.range b.width.toNat).flatMap
            (monoBitSpec b.buffer (i * b.pitch.natAbs))) := by
      intro i hi
      have h := monoRowGo_eq b.buffer (i * b.pitch.natAbs) b.width.toNat
        b.width.toNat 0 le_rfl (by simpa using hlen i hi)
      simpa using h
    rw [catRange_ok _ _ _ hrow]
    simp only [Bind.bind, PResult.bindR, Pure.pure]
  · decide

/-- One-row Mono bitmap holding the byte 0b10110000. -/
def bitmapMono : FtBitmap :=
  { rows := 1, width := 8, pitch := 1, pixel_mode := FtPixelMode.mono,
    buffer := [0b10110000] }

/-- C8 witness: the theorem applied to the concrete one-byte Mono bitmap
yields exactly the claim's 24-byte sequence. -/
theorem c8_witness :
    normalize_buffer bitmapMono = PResult.ok (1, 8,
      [255, 255, 255, 0, 0, 0, 255, 255, 255, 255, 255, 255,
       0, 0, 0, 0, 0, 0, 0, 0, 0, 0, 0, 0]) := by
  rw [(c8_mono_normalization bitmapMono rfl (by decide)).1]
  decide

/-- A 0x0 color glyph: the source computes `scaling_factor = 0.0/0.0 = NaN`,
`advance_step = NaN as usize = 0`, and then panics on the i32 division
`top / (advance_step as i32)` with a zero divisor. -/
def glyphZero : RasterizedGlyphRec :=
  { c := 'A', width := 0, height := 0, top := 5, left := 3, colored := true,
    buf := [] }

/-- Fidelity check for the NaN corner: downsampling a 0x0 glyph aborts, as
the source's `top / 0` does. -/
theorem downsample_zero_glyph_panics :
    downsample_bitmap glyphZero (1/2) = PResult.panic := by
  norm_num [downsample_bitmap, glyphZero, f64toUsize, f32ceilToUsize, f32toI32,
    ratTrunc, usizeToI32, gridLines, gridCols, boxPixel, boxLines, boxCols,
    idxP, f32divCast, F32x.fmax, F32x.ceilToUsize]

/-- A 1x3 color glyph whose target width at fixup 1/2 is 0: the source
computes `scaling_factor = 1.0/0.0 = +inf`, `advance_step = usize::MAX`,
whose `as i32` cast is -1, so the blend term is `top / (-1) = -top`. -/
def glyphThin : RasterizedGlyphRec :=
  { c := 'A', width := 1, height := 3, top := 4, left := 3, colored := true,
    buf := [9, 9, 9, 9, 9, 9, 9, 9, 9] }

/-- Fidelity check for the infinity corner: with `advance_step = usize::MAX`
(`as i32` = -1) the output top is `(trunc(4 * 0.5) + 4 / -1) / 2 = -1`. -/
theorem downsample_inf_step_negates_blend :
    downsample_bitmap glyphThin (1/2) = PResult.ok
      { c := 'A', width := 0, height := 1, top := -1, left := 1, colored := true,
        buf := [] } := by
  norm_num [downsample_bitmap, glyphThin, f64toUsize, f32ceilToUsize, f32toI32,
    ratTrunc, usizeToI32, gridLines, gridCols, boxPixel, boxLines, boxCols,
    idxP, f32divCast, F32x.fmax, F32x.ceilToUsize]
  decide
